import Mathlib

/-!
Verification of the mcp-gateway router against its specification.

Strings from the Go sources are modelled as `List Char` (one `Char` per byte;
Go strings are byte sequences).  Each definition translates one function of
the repository; the theorems settle the frozen claims C1..C10.
-/

set_option maxRecDepth 4096

/-- One byte of a Go string. -/
abbrev Str := List Char

/-- Conversion helper from Lean string literals to the byte-list model. -/
def str (s : String) : Str := s.data

namespace Gateway

/-- The test used by Go strings.HasPrefix: `leadsWith pat s` holds when `s`
starts with `pat`. -/
def leadsWith : Str → Str → Bool
  | [], _ => true
  | _ :: _, [] => false
  | a :: as, b :: bs => a == b && leadsWith as bs

/-- The test used by Go strings.Contains: `containsSub pat s` holds when `pat`
occurs as a contiguous substring of `s`. -/
def containsSub (pat : Str) : Str → Bool
  | [] => leadsWith pat []
  | c :: rest => leadsWith pat (c :: rest) || containsSub pat rest

/-- The test used by Go strings.ContainsAny: some character of `s` is in
`set`. -/
def containsAnyOf (s set : Str) : Bool :=
  s.any (fun c => set.contains c)

theorem mem_of_leadsWith {pat s : Str} (h : leadsWith pat s = true) :
    ∀ c ∈ pat, c ∈ s := by
  induction pat generalizing s with
  | nil => intro c hc; cases hc
  | cons a as ih =>
    cases s with
    | nil => simp [leadsWith] at h
    | cons b bs =>
      simp only [leadsWith, Bool.and_eq_true, beq_iff_eq] at h
      intro c hc
      rcases List.mem_cons.mp hc with rfl | hc
      · exact h.1 ▸ List.mem_cons_self _ _
      · exact List.mem_cons_of_mem _ (ih h.2 c hc)

theorem mem_of_containsSub {pat s : Str} (h : containsSub pat s = true) :
    ∀ c ∈ pat, c ∈ s := by
  induction s with
  | nil => exact mem_of_leadsWith h
  | cons b bs ih =>
    simp only [containsSub, Bool.or_eq_true] at h
    rcases h with h | h
    · exact mem_of_leadsWith h
    · intro c hc
      exact List.mem_cons_of_mem _ (ih h c hc)

/-! ## Sandbox: tool-name validator (sandbox.go, ValidateToolName) -/

/-- Error classes reported by ValidateToolName, one per rejection branch. -/
inductive NameErr where
  | emptyName
  | whitespace
  | pathSep
  | parentRef
  | encodedSep
  | doubleEnc
  | invalidChar (c : Char)
deriving DecidableEq

/-- The character class accepted by the final loop of ValidateToolName:
a-z, A-Z, 0-9, hyphen, underscore. -/
def allowedNameChar (c : Char) : Bool :=
  ('a' ≤ c && c ≤ 'z') || ('A' ≤ c && c ≤ 'Z') || ('0' ≤ c && c ≤ '9')
    || c == '-' || c == '_'

/-- The first character rejected by the final rune loop, if any. -/
def firstBadChar : Str → Option Char
  | [] => none
  | c :: rest => if allowedNameChar c then firstBadChar rest else some c

/-- ValidateToolName from sandbox.go: `none` means the name is accepted,
`some e` is the error class returned. -/
def validateToolName (name : Str) : Option NameErr :=
  if name = [] then some .emptyName
  else if containsAnyOf name (str " \t\n\r") then some .whitespace
  else if containsAnyOf name (str "/\\") then some .pathSep
  else if containsSub (str "..") name then some .parentRef
  else if containsSub (str "%2f") name || containsSub (str "%2F") name
      || containsSub (str "%5c") name || containsSub (str "%5C") name then
    some .encodedSep
  else if containsSub (str "%25") name then some .doubleEnc
  else
    match firstBadChar name with
    | some c => some (.invalidChar c)
    | none => none

theorem firstBadChar_none_iff (s : Str) :
    firstBadChar s = none ↔ s.all allowedNameChar = true := by
  induction s with
  | nil => simp [firstBadChar]
  | cons c rest ih =>
    by_cases h : allowedNameChar c = true
    · simp [firstBadChar, h, ih]
    · simp [firstBadChar, h, Bool.of_not_eq_true h]

theorem allowed_not_mem {s : Str} (hall : s.all allowedNameChar = true)
    {c : Char} (hc : allowedNameChar c = false) : c ∉ s := by
  intro hmem
  have := List.all_eq_true.mp hall c hmem
  rw [hc] at this
  exact Bool.false_ne_true this

theorem containsSub_false_of_bad {pat s : Str}
    (hall : s.all allowedNameChar = true) {c : Char} (hc : c ∈ pat)
    (hbad : allowedNameChar c = false) : containsSub pat s = false := by
  by_contra h
  have h' : containsSub pat s = true := by
    cases hcs : containsSub pat s with
    | false => exact absurd hcs h
    | true => rfl
  exact allowed_not_mem hall hbad (mem_of_containsSub h' c hc)

theorem containsAnyOf_false_of_all {s set : Str}
    (hall : s.all allowedNameChar = true)
    (hset : ∀ c ∈ set, allowedNameChar c = false) :
    containsAnyOf s set = false := by
  by_contra h
  have h' : containsAnyOf s set = true := by
    cases hcs : containsAnyOf s set with
    | false => exact absurd hcs h
    | true => rfl
  rcases List.any_eq_true.mp h' with ⟨c, hcs, hcset⟩
  exact allowed_not_mem hall (hset c (List.mem_of_elem_eq_true hcset)) hcs

/-- C2: ValidateToolName accepts a name exactly when it is non-empty and every
character lies in the class a-z, A-Z, 0-9, underscore, hyphen; every listed
rejection (whitespace, path separators, dot-dot, encoded separators, encoded
percent) is implied, and a failing name yields an error value naming the
offending class (the `NameErr` carried by `some`). -/
theorem C2_validateToolName_charset (name : Str) :
    validateToolName name = none ↔
      name ≠ [] ∧ name.all allowedNameChar = true := by
  constructor
  · intro h
    unfold validateToolName at h
    by_cases h0 : name = []
    · simp [h0] at h
    · refine ⟨h0, ?_⟩
      simp only [h0, if_false] at h
      split at h
      · exact absurd h (by simp)
      · split at h
        · exact absurd h (by simp)
        · split at h
          · exact absurd h (by simp)
          · split at h
            · exact absurd h (by simp)
            · split at h
              · exact absurd h (by simp)
              · revert h
                match hfb : firstBadChar name with
                | some c => intro h; exact absurd h (by simp)
                | none => intro _; exact (firstBadChar_none_iff name).mp hfb
  · rintro ⟨h0, hall⟩
    have hws : containsAnyOf name (str " \t\n\r") = false :=
      containsAnyOf_false_of_all hall (by decide)
    have hsep : containsAnyOf name (str "/\\") = false :=
      containsAnyOf_false_of_all hall (by decide)
    have hdd : containsSub (str "..") name = false :=
      containsSub_false_of_bad hall (c := '.') (by decide) (by decide)
    have h2f : containsSub (str "%2f") name = false :=
      containsSub_false_of_bad hall (c := '%') (by decide) (by decide)
    have h2F : containsSub (str "%2F") name = false :=
      containsSub_false_of_bad hall (c := '%') (by decide) (by decide)
    have h5c : containsSub (str "%5c") name = false :=
      containsSub_false_of_bad hall (c := '%') (by decide) (by decide)
    have h5C : containsSub (str "%5C") name = false :=
      containsSub_false_of_bad hall (c := '%') (by decide) (by decide)
    have h25 : containsSub (str "%25") name = false :=
      containsSub_false_of_bad hall (c := '%') (by decide) (by decide)
    have hfb : firstBadChar name = none := (firstBadChar_none_iff name).mpr hall
    unfold validateToolName
    simp [h0, hws, hsep, hdd, h2f, h2F, h5c, h5C, h25, hfb]

/-- Concrete instance of C2: a well-formed name is accepted, and acceptance
yields exactly the charset condition. -/
theorem C2_validateToolName_charset_witness :
    str "my_tool-1" ≠ [] ∧ (str "my_tool-1").all allowedNameChar = true :=
  (C2_validateToolName_charset (str "my_tool-1")).mp (by decide)

end Gateway

namespace Gateway

/-! ## Configuration (config.go): tool records and load-time validation -/

/-- Tool record as declared in config.go (yaml fields). Durations are kept in
milliseconds, counts as Go ints (`Int`). -/
structure Tool where
  runtime : Str
  mode : Str
  cmd : Str
  args : List Str
  image : Str
  timeoutMS : Int
  maxConcurrent : Int
  dockerNetwork : Str
  readOnly : Option Bool
deriving DecidableEq

/-- Config record: two workspace roots and the tool catalog (map modelled as
an association list). -/
structure Config where
  workspaceRoot : Str
  toolsRoot : Str
  tools : List (Str × Tool)
deriving DecidableEq

/-- DefaultToolTimeout = 30 s, in milliseconds. -/
def defaultToolTimeout : Int := 30000

/-- DefaultMaxConcurrent. -/
def defaultMaxConcurrent : Int := 1

/-- MaxAllowedConcurrency. -/
def maxAllowedConcurrency : Int := 32

/-- Tool.Timeout from config.go: non-positive timeout_ms means the default. -/
def Tool.timeout (t : Tool) : Int :=
  if t.timeoutMS ≤ 0 then defaultToolTimeout else t.timeoutMS

/-- Tool.MaxConc from config.go: non-positive means the default, values above
the cap are clamped. -/
def Tool.maxConc (t : Tool) : Int :=
  if t.maxConcurrent ≤ 0 then defaultMaxConcurrent
  else if t.maxConcurrent > maxAllowedConcurrency then maxAllowedConcurrency
  else t.maxConcurrent

/-- Tool.DockerNetworkEffective from config.go. -/
def Tool.dockerNetworkEffective (t : Tool) : Str :=
  if t.dockerNetwork = [] then str "none"
  else if t.dockerNetwork = str "none" ∨ t.dockerNetwork = str "bridge" then
    t.dockerNetwork
  else str "none"

/-- Tool.ReadOnlyEffective from config.go: default true when unset. -/
def Tool.readOnlyEffective (t : Tool) : Bool :=
  match t.readOnly with
  | none => true
  | some b => b

/-- Error cases of Config.Validate. -/
inductive CfgErr where
  | missingWorkspaceRoot
  | missingToolsRoot
  | noTools
  | missingCmd (name : Str)
  | missingImage (name : Str)
  | badNetwork (name : Str)
  | badRuntime (name : Str)
  | badMode (name : Str)
  | negTimeout (name : Str)
  | negMaxConc (name : Str)
  | tooBigMaxConc (name : Str)
deriving DecidableEq

/-- Per-tool checks of Config.Validate, in source order. -/
def validateToolCfg (name : Str) (t : Tool) : Option CfgErr :=
  if t.runtime = str "native" then
    if t.cmd = [] then some (.missingCmd name)
    else validateToolCfgRest name t
  else if t.runtime = str "container" then
    if t.image = [] then some (.missingImage name)
    else if t.dockerNetwork ≠ [] ∧ t.dockerNetwork ≠ str "none"
        ∧ t.dockerNetwork ≠ str "bridge" then some (.badNetwork name)
    else validateToolCfgRest name t
  else some (.badRuntime name)
where
  /-- The checks shared by both runtimes: mode, timeout_ms, max_concurrent. -/
  validateToolCfgRest (name : Str) (t : Tool) : Option CfgErr :=
    if t.mode ≠ [] ∧ t.mode ≠ str "launcher" ∧ t.mode ≠ str "daemon" then
      some (.badMode name)
    else if t.timeoutMS < 0 then some (.negTimeout name)
    else if t.maxConcurrent < 0 then some (.negMaxConc name)
    else if t.maxConcurrent > maxAllowedConcurrency then
      some (.tooBigMaxConc name)
    else none

/-- First failing tool of the catalog, if any. -/
def firstToolErr : List (Str × Tool) → Option CfgErr
  | [] => none
  | (n, t) :: rest =>
    match validateToolCfg n t with
    | some e => some e
    | none => firstToolErr rest

/-- Config.Validate from config.go; `none` means the configuration loads. -/
def validateConfig (c : Config) : Option CfgErr :=
  if c.workspaceRoot = [] then some .missingWorkspaceRoot
  else if c.toolsRoot = [] then some .missingToolsRoot
  else if c.tools = [] then some .noTools
  else firstToolErr c.tools

/-! ## Core admission (core.go): per-tool semaphore -/

/-- A per-tool admission counter: a bounded channel of capacity `cap` holding
`count` tokens. -/
structure Sem where
  cap : Nat
  count : Nat
deriving DecidableEq

/-- The lazily created semaphore map of the core service. -/
abbrev SemMap := List (Str × Sem)

/-- Association-list lookup (Go map read). -/
def lookupSem : SemMap → Str → Option Sem
  | [], _ => none
  | (n, s) :: rest, name => if n = name then some s else lookupSem rest name

/-- Association-list update (Go map write / channel state change). -/
def setSem : SemMap → Str → Sem → SemMap
  | [], name, s => [(name, s)]
  | (n, s0) :: rest, name, s =>
    if n = name then (name, s) :: rest else (n, s0) :: setSem rest name s

/-- toolSemaphore from core.go: return the existing counter or create one
whose capacity is the tool's effective max_concurrent. -/
def toolSemaphore (m : SemMap) (name : Str) (t : Tool) : Sem × SemMap :=
  match lookupSem m name with
  | some s => (s, m)
  | none =>
    let s : Sem := ⟨t.maxConc.toNat, 0⟩
    (s, setSem m name s)

/-- acquireSemaphore from core.go: non-blocking channel send; fails exactly
when the channel is full. -/
def acquireSemaphore (s : Sem) : Option Sem :=
  if s.count < s.cap then some ⟨s.cap, s.count + 1⟩ else none

/-- releaseSemaphore from core.go: non-blocking channel receive; a release of
an empty channel is a no-op. -/
def releaseSemaphore (s : Sem) : Sem :=
  if 0 < s.count then ⟨s.cap, s.count - 1⟩ else s

theorem lookupSem_setSem (m : SemMap) (name : Str) (s : Sem) :
    lookupSem (setSem m name s) name = some s := by
  induction m with
  | nil => simp [setSem, lookupSem]
  | cons p rest ih =>
    obtain ⟨n, s0⟩ := p
    by_cases h : n = name
    · simp [setSem, h, lookupSem]
    · simp [setSem, h, lookupSem, ih]

/-- C10: the per-tool counter is created at most once, with capacity fixed to
the tool's effective max_concurrent at first use; acquire and release keep the
count within [0, capacity]; releasing an empty counter is a no-op. -/
theorem C10_semaphore_invariants (m : SemMap) (name : Str) (t : Tool)
    (s s1 : Sem) :
    (lookupSem m name = some s → toolSemaphore m name t = (s, m)) ∧
    (lookupSem m name = none →
      (toolSemaphore m name t).1 = ⟨t.maxConc.toNat, 0⟩ ∧
      lookupSem (toolSemaphore m name t).2 name = some ⟨t.maxConc.toNat, 0⟩) ∧
    (s.count ≤ s.cap → acquireSemaphore s = some s1 →
      s1.count ≤ s1.cap ∧ s1.count = s.count + 1 ∧ s1.cap = s.cap) ∧
    (s.count = s.cap → acquireSemaphore s = none) ∧
    (s.count ≤ s.cap → (releaseSemaphore s).count ≤ (releaseSemaphore s).cap) ∧
    (s.count = 0 → releaseSemaphore s = s) := by
  refine ⟨?_, ?_, ?_, ?_, ?_, ?_⟩
  · intro h; simp [toolSemaphore, h]
  · intro h; simp [toolSemaphore, h]; exact lookupSem_setSem m name _
  · intro hle hacq
    unfold acquireSemaphore at hacq
    split at hacq
    · rename_i hlt
      cases hacq
      exact ⟨hlt, rfl, rfl⟩
    · cases hacq
  · intro heq
    unfold acquireSemaphore
    simp [heq]
  · intro hle
    unfold releaseSemaphore
    split
    · simpa using Nat.le_trans (Nat.sub_le _ _) hle
    · simpa using hle
  · intro h0
    unfold releaseSemaphore
    simp [h0]

/-- A concrete native tool used by the witnesses: max_concurrent 2, default
timeout. -/
def toolNat2 : Tool :=
  { runtime := (str "native"), mode := [], cmd := (str "/bin/t"), args := [],
    image := [], timeoutMS := 0, maxConcurrent := 2, dockerNetwork := [],
    readOnly := none }

/-- Concrete instance of C10 at a fresh map and a capacity-2 tool. -/
theorem C10_semaphore_invariants_witness :
    ((toolSemaphore [] (str "t") toolNat2).1 = (⟨2, 0⟩ : Sem)) ∧
    ((⟨2, 2⟩ : Sem).count ≤ (⟨2, 2⟩ : Sem).cap ∧
      (⟨2, 2⟩ : Sem).count = (⟨2, 1⟩ : Sem).count + 1) ∧
    acquireSemaphore ⟨2, 2⟩ = none ∧
    releaseSemaphore ⟨2, 0⟩ = (⟨2, 0⟩ : Sem) := by
  refine ⟨?_, ?_, ?_, ?_⟩
  · exact ((C10_semaphore_invariants [] (str "t") toolNat2 ⟨0, 0⟩ ⟨0, 0⟩).2.1
      (by decide)).1
  · have h := (C10_semaphore_invariants [] (str "t") toolNat2
      ⟨2, 1⟩ ⟨2, 2⟩).2.2.1 (by decide) (by decide)
    exact ⟨h.1, h.2.1⟩
  · exact (C10_semaphore_invariants [] (str "t") toolNat2
      ⟨2, 2⟩ ⟨2, 2⟩).2.2.2.1 rfl
  · exact (C10_semaphore_invariants [] (str "t") toolNat2
      ⟨2, 0⟩ ⟨2, 0⟩).2.2.2.2.2 rfl

end Gateway

namespace Gateway

/-! ## JSON validity (encoding/json json.Valid) and byte trimming -/

/-- JSON insignificant whitespace bytes (RFC 8259, Go json scanner). -/
def jsonWsChar (c : Char) : Bool :=
  c == ' ' || c == '\t' || c == '\n' || c == '\r'

/-- Skip leading JSON whitespace. -/
def skipJsonWs : Str → Str
  | [] => []
  | c :: rest => if jsonWsChar c then skipJsonWs rest else c :: rest

def isDigit (c : Char) : Bool := '0' ≤ c && c ≤ '9'

def isHexDigit (c : Char) : Bool :=
  isDigit c || ('a' ≤ c && c ≤ 'f') || ('A' ≤ c && c ≤ 'F')

/-- Consume a JSON string body, the opening quote already consumed; returns
the remainder after the closing quote. Bytes below 0x20 are rejected, any
other byte is accepted raw (the Go scanner does not insist on UTF-8). -/
def parseStrBody : Str → Option Str
  | [] => none
  | c :: rest =>
    if c == '"' then some rest
    else if c == '\\' then
      match rest with
      | [] => none
      | e :: rest2 =>
        if e == '"' || e == '\\' || e == '/' || e == 'b' || e == 'f'
            || e == 'n' || e == 'r' || e == 't' then parseStrBody rest2
        else if e == 'u' then
          match rest2 with
          | h1 :: h2 :: h3 :: h4 :: rest3 =>
            if isHexDigit h1 && isHexDigit h2 && isHexDigit h3
                && isHexDigit h4 then parseStrBody rest3
            else none
          | _ => none
        else none
    else if c.toNat < 0x20 then none
    else parseStrBody rest

/-- Consume an optional JSON fraction part. -/
def parseFrac : Str → Option Str
  | '.' :: c :: rest =>
    if isDigit c then some (List.dropWhile isDigit rest) else none
  | ['.'] => none
  | s => some s

/-- Consume an optional JSON exponent part. -/
def parseExp : Str → Option Str
  | [] => some []
  | c :: rest =>
    if c == 'e' || c == 'E' then
      let rest1 :=
        match rest with
        | s :: r2 => if s == '+' || s == '-' then r2 else rest
        | [] => rest
      match rest1 with
      | d :: r3 => if isDigit d then some (List.dropWhile isDigit r3) else none
      | [] => none
    else some (c :: rest)

/-- Consume a JSON number after an optional minus sign (leading zero must be
alone, per RFC 8259 and the Go scanner). -/
def parseNumFromDigits : Str → Option Str
  | [] => none
  | c :: rest =>
    if c == '0' then
      match parseFrac rest with
      | some r => parseExp r
      | none => none
    else if isDigit c then
      match parseFrac (List.dropWhile isDigit rest) with
      | some r => parseExp r
      | none => none
    else none

mutual

/-- Consume one JSON value; fuel bounds the recursion. -/
def parseVal (fuel : Nat) (s : Str) : Option Str :=
  match fuel, s with
  | 0, _ => none
  | _, [] => none
  | Nat.succ fuel, c :: rest =>
    if c == '"' then parseStrBody rest
    else if c == 't' then
      if leadsWith (str "rue") rest then some (rest.drop 3) else none
    else if c == 'f' then
      if leadsWith (str "alse") rest then some (rest.drop 4) else none
    else if c == 'n' then
      if leadsWith (str "ull") rest then some (rest.drop 3) else none
    else if c == '[' then
      match skipJsonWs rest with
      | ']' :: r => some r
      | s1 => parseArrItems fuel s1
    else if c == '\x7b' then
      match skipJsonWs rest with
      | '\x7d' :: r => some r
      | s1 => parseObjItems fuel s1
    else if c == '-' then parseNumFromDigits rest
    else if isDigit c then parseNumFromDigits (c :: rest)
    else none

/-- Consume the items of a non-empty JSON array, up to and including the
closing bracket. -/
def parseArrItems (fuel : Nat) (s : Str) : Option Str :=
  match fuel with
  | 0 => none
  | Nat.succ fuel =>
    match parseVal fuel s with
    | none => none
    | some r =>
      match skipJsonWs r with
      | ',' :: r2 => parseArrItems fuel (skipJsonWs r2)
      | ']' :: r2 => some r2
      | _ => none

/-- Consume the members of a non-empty JSON object, up to and including the
closing brace. -/
def parseObjItems (fuel : Nat) (s : Str) : Option Str :=
  match fuel with
  | 0 => none
  | Nat.succ fuel =>
    match s with
    | '"' :: rest =>
      match parseStrBody rest with
      | none => none
      | some r =>
        match skipJsonWs r with
        | ':' :: r2 =>
          match parseVal fuel (skipJsonWs r2) with
          | none => none
          | some r3 =>
            match skipJsonWs r3 with
            | ',' :: r4 => parseObjItems fuel (skipJsonWs r4)
            | '\x7d' :: r4 => some r4
            | _ => none
        | _ => none
    | _ => none

end

/-- Go json.Valid: the bytes form exactly one JSON value surrounded only by
whitespace. -/
def jsonValid (s : Str) : Bool :=
  match parseVal (2 * s.length + 4) (skipJsonWs s) with
  | some r => skipJsonWs r = []
  | none => false

/-- ASCII whitespace trimmed by bytes.TrimSpace (the fast path; all bytes of
interest here are ASCII). -/
def asciiSpace (c : Char) : Bool :=
  c == ' ' || c == '\t' || c == '\n' || c == Char.ofNat 11
    || c == Char.ofNat 12 || c == '\r'

/-- bytes.TrimSpace on ASCII input. -/
def trimSpace (s : Str) : Str :=
  ((s.dropWhile asciiSpace).reverse.dropWhile asciiSpace).reverse

/-! ## Core service (core.go): StreamTool as a sequential trace function -/

/-- Behaviour of the spawned child as the core observes it. -/
structure Child where
  spawnOk : Bool
  stdinErr : Bool
  outLines : List Str
  scanFail : Bool
  waitFail : Bool
deriving DecidableEq

/-- The errors StreamTool can surface. -/
inductive CoreErr where
  | invalidToolName
  | unknownTool (name : Str)
  | toolBusy
  | spawnFail
  | invalidInputJson
  | writeStdin
  | sinkGone
  | readStdout
  | waitFail
deriving DecidableEq

/-- Observable trace of one StreamTool call: whether a child was spawned, the
timeout of the derived child context, the WriteLine calls attempted, the lines
actually delivered, and the returned error. -/
structure StreamTrace where
  spawned : Bool
  timeoutMs : Option Int
  attempts : Nat
  written : List Str
  result : Option CoreErr
deriving DecidableEq

/-- The stdout relay loop of StreamTool: skip empty lines, copy and forward
each non-empty line; a sink refusal (peer gone) aborts the loop. `accept` is
the number of WriteLine calls the sink accepts before failing. -/
def relayLines (accept : Nat) : List Str → Nat → List Str →
    Nat × List Str × Option CoreErr
  | [], att, acc => (att, acc.reverse, none)
  | l :: rest, att, acc =>
    if l = [] then relayLines accept rest att acc
    else if acc.length < accept then relayLines accept rest (att + 1) (l :: acc)
    else (att + 1, acc.reverse, some .sinkGone)

/-- Catalog lookup (cfg.Tools map read, used by MustGetTool). -/
def lookupTool (cfg : Config) (name : Str) : Option Tool :=
  lookupToolIn cfg.tools name
where
  lookupToolIn : List (Str × Tool) → Str → Option Tool
    | [], _ => none
    | (n, t) :: rest, name => if n = name then some t else lookupToolIn rest name

/-- StreamTool from core.go as a sequential trace function.  Steps, in source
order: validate the name, resolve the tool, acquire the per-tool semaphore
(fail-fast), derive the child context with the tool's effective timeout, spawn,
default empty input to an empty JSON object, check input validity, write and
close stdin, relay stdout lines to the sink, surface scanner and wait errors.
The semaphore token is released on every path after acquisition. -/
def streamTool (cfg : Config) (sm : SemMap) (name : Str) (input : Str)
    (child : Child) (sinkAccept : Nat) : StreamTrace × SemMap :=
  if (validateToolName name).isSome then
    (⟨false, none, 0, [], some .invalidToolName⟩, sm)
  else
    match lookupTool cfg name with
    | none => (⟨false, none, 0, [], some (.unknownTool name)⟩, sm)
    | some tool =>
      let pair := toolSemaphore sm name tool
      match acquireSemaphore pair.1 with
      | none => (⟨false, none, 0, [], some .toolBusy⟩, pair.2)
      | some semAcq =>
        let sm2 := setSem pair.2 name semAcq
        let tmo := tool.timeout
        let tr : StreamTrace :=
          if ¬ child.spawnOk then ⟨false, some tmo, 0, [], some .spawnFail⟩
          else
            let input1 := if input = [] then str "\x7b\x7d" else input
            if ¬ jsonValid input1 then
              ⟨true, some tmo, 0, [], some .invalidInputJson⟩
            else if child.stdinErr then
              ⟨true, some tmo, 0, [], some .writeStdin⟩
            else
              let r := relayLines sinkAccept child.outLines 0 []
              match r.2.2 with
              | some e => ⟨true, some tmo, r.1, r.2.1, some e⟩
              | none =>
                if child.scanFail then
                  ⟨true, some tmo, r.1, r.2.1, some .readStdout⟩
                else if child.waitFail then
                  ⟨true, some tmo, r.1, r.2.1, some .waitFail⟩
                else ⟨true, some tmo, r.1, r.2.1, none⟩
        (tr, setSem sm2 name (releaseSemaphore semAcq))

end Gateway

namespace Gateway

theorem timeout_pos (t : Tool) : 0 < t.timeout := by
  unfold Tool.timeout
  split
  · decide
  · omega

theorem validateToolCfg_none_timeout {n : Str} {t : Tool}
    (h : validateToolCfg n t = none) : 0 ≤ t.timeoutMS := by
  unfold validateToolCfg at h
  split at h
  · split at h
    · exact absurd h (by simp)
    · unfold validateToolCfg.validateToolCfgRest at h
      split at h
      · exact absurd h (by simp)
      · split at h
        · exact absurd h (by simp)
        · omega
  · split at h
    · split at h
      · exact absurd h (by simp)
      · split at h
        · exact absurd h (by simp)
        · unfold validateToolCfg.validateToolCfgRest at h
          split at h
          · exact absurd h (by simp)
          · split at h
            · exact absurd h (by simp)
            · omega
    · exact absurd h (by simp)

theorem firstToolErr_none_mem {l : List (Str × Tool)} {n : Str} {t : Tool}
    (hmem : (n, t) ∈ l) (h : firstToolErr l = none) :
    validateToolCfg n t = none := by
  induction l with
  | nil => cases hmem
  | cons p rest ih =>
    obtain ⟨m, u⟩ := p
    unfold firstToolErr at h
    revert h
    match hv : validateToolCfg m u with
    | some e => intro h; exact absurd h (by simp)
    | none =>
      intro h
      rcases List.mem_cons.mp hmem with heq | hmem2
      · cases heq; exact hv
      · exact ih hmem2 h

theorem streamTool_spawned_timeout {cfg : Config} {sm : SemMap} {name : Str}
    {input : Str} {child : Child} {accept : Nat} :
    (streamTool cfg sm name input child accept).1.spawned = true →
    ∃ tool, lookupTool cfg name = some tool ∧
      (streamTool cfg sm name input child accept).1.timeoutMs
        = some tool.timeout := by
  unfold streamTool
  split
  · intro hsp; simp at hsp
  · cases hlk : lookupTool cfg name with
    | none => intro hsp; simp at hsp
    | some tool =>
      dsimp only
      cases hacq : acquireSemaphore (toolSemaphore sm name tool).1 with
      | none => intro hsp; simp at hsp
      | some semAcq =>
        intro hsp
        refine ⟨tool, rfl, ?_⟩
        dsimp only
        repeat' split
        all_goals rfl

/-- C7: the effective timeout of every tool record is strictly positive;
timeout_ms zero selects the 30-second default; a negative timeout_ms cannot
survive configuration load; and whenever StreamTool spawns a child, the child
context is derived with exactly the tool's effective timeout. -/
theorem C7_effective_timeout_always_positive :
    (∀ t : Tool, 0 < t.timeout) ∧
    (∀ t : Tool, t.timeoutMS = 0 → t.timeout = 30000) ∧
    (∀ (c : Config) (n : Str) (t : Tool),
      (n, t) ∈ c.tools → t.timeoutMS < 0 → validateConfig c ≠ none) ∧
    (∀ (cfg : Config) (sm : SemMap) (name input : Str) (child : Child)
        (accept : Nat),
      (streamTool cfg sm name input child accept).1.spawned = true →
      ∃ tool, lookupTool cfg name = some tool ∧
        (streamTool cfg sm name input child accept).1.timeoutMs
          = some tool.timeout ∧ 0 < tool.timeout) := by
  refine ⟨timeout_pos, ?_, ?_, ?_⟩
  · intro t h
    unfold Tool.timeout
    rw [h]
    rfl
  · intro c n t hmem hneg hnone
    unfold validateConfig at hnone
    split at hnone
    · exact absurd hnone (by simp)
    · split at hnone
      · exact absurd hnone (by simp)
      · split at hnone
        · exact absurd hnone (by simp)
        · have := validateToolCfg_none_timeout (firstToolErr_none_mem hmem hnone)
          omega
  · intro cfg sm name input child accept hsp
    obtain ⟨tool, hlk, htm⟩ := streamTool_spawned_timeout hsp
    exact ⟨tool, hlk, htm, timeout_pos tool⟩

/-- A tool with a negative timeout_ms, for the C7 witness. -/
def toolNegTimeout : Tool := { toolNat2 with timeoutMS := -1 }

/-- Catalog holding the negative-timeout tool. -/
def cfgNegTimeout : Config :=
  { workspaceRoot := (str "/ws"), toolsRoot := (str "/tools"),
    tools := [(str "bad", toolNegTimeout)] }

/-- A one-tool catalog used by several witnesses. -/
def cfgOne : Config :=
  { workspaceRoot := (str "/ws"), toolsRoot := (str "/tools"),
    tools := [(str "t", toolNat2)] }

/-- A child that spawns, produces no output, and exits cleanly. -/
def childQuiet : Child :=
  { spawnOk := true, stdinErr := false, outLines := [], scanFail := false,
    waitFail := false }

/-- Concrete instance of C7: a zero-timeout tool gets 30 s; a catalog with a
negative timeout_ms is rejected; a spawned run derives the default timeout. -/
theorem C7_effective_timeout_always_positive_witness :
    (0 < toolNat2.timeout) ∧ toolNat2.timeout = 30000 ∧
    validateConfig cfgNegTimeout ≠ none ∧
    (∃ tool,
      lookupTool cfgOne (str "t") = some tool ∧
      (streamTool cfgOne [] (str "t") [] childQuiet 1).1.timeoutMs
        = some tool.timeout ∧
      0 < tool.timeout) := by
  refine ⟨C7_effective_timeout_always_positive.1 toolNat2,
    C7_effective_timeout_always_positive.2.1 toolNat2 rfl, ?_, ?_⟩
  · exact C7_effective_timeout_always_positive.2.2.1 cfgNegTimeout (str "bad")
      toolNegTimeout (by simp [cfgNegTimeout]) (by decide)
  · exact C7_effective_timeout_always_positive.2.2.2 cfgOne [] (str "t") []
      childQuiet 1 (by decide)

end Gateway

namespace Gateway

/-! ## HTTP transport (transport/http.go): hardening, SSE, error phases -/

/-- Response header map; `setHeader` replaces like net/http Header.Set. -/
abbrev Headers := List (Str × Str)

def setHeader : Headers → Str → Str → Headers
  | [], k, v => [(k, v)]
  | (k0, v0) :: rest, k, v =>
    if k0 = k then (k, v) :: rest else (k0, v0) :: setHeader rest k v

def delHeader : Headers → Str → Headers
  | [], _ => []
  | (k0, v0) :: rest, k =>
    if k0 = k then delHeader rest k else (k0, v0) :: delHeader rest k

def getHeader : Headers → Str → Option Str
  | [], _ => none
  | (k0, v0) :: rest, k => if k0 = k then some v0 else getHeader rest k

/-- One SSE frame as written by sendRawSSE: an event line and a data line,
the payload trimmed of surrounding whitespace. -/
structure SseEvent where
  kind : Str
  data : Str
deriving DecidableEq

/-- sendRawSSE from transport/http.go (payload trimmed before framing). -/
def sseFrame (kind payload : Str) : SseEvent := ⟨kind, trimSpace payload⟩

/-- The client-observable result of one dispatch-endpoint request: either an
HTTP error status produced before any event (http.Error), or a committed
streaming response with its message events and at most one error event. -/
inductive McpOutcome where
  | earlyError (status : Nat) (headers : Headers) (msg : Str)
  | streamed (headers : Headers) (messages : List SseEvent)
      (errEvent : Option SseEvent)
deriving DecidableEq

/-- net/http http.Error: deletes Content-Length, overwrites Content-Type with
text/plain and adds nosniff, then writes the status and the message.  Headers
already present in the map are sent along with the error response. -/
def httpError (h : Headers) (status : Nat) (msg : Str) : McpOutcome :=
  let h1 := delHeader h (str "Content-Length")
  let h2 := setHeader h1 (str "Content-Type") (str "text/plain; charset=utf-8")
  let h3 := setHeader h2 (str "X-Content-Type-Options") (str "nosniff")
  .earlyError status h3 msg

def outcomeStatus : McpOutcome → Nat
  | .earlyError s _ _ => s
  | .streamed _ _ _ => 200

def outcomeHeaders : McpOutcome → Headers
  | .earlyError _ h _ => h
  | .streamed h _ _ => h

/-- streamState from transport/http.go. -/
structure StreamState where
  started : Bool
  errorSent : Bool
deriving DecidableEq

def StreamState.markStarted (s : StreamState) : StreamState :=
  { s with started := true }

def StreamState.canHTTPError (s : StreamState) : Bool := !s.started

/-- trySendStreamError: runs the send exactly when no error event has been
sent yet; returns the new state and whether the send ran. -/
def StreamState.trySendStreamError (s : StreamState) : StreamState × Bool :=
  if s.errorSent then (s, false) else ({ s with errorSent := true }, true)

/-- Number of sends performed by `n` consecutive trySendStreamError calls. -/
def trySendCount : StreamState → Nat → Nat
  | _, 0 => 0
  | st, Nat.succ n =>
    let p := st.trySendStreamError
    (if p.2 then 1 else 0) + trySendCount p.1 n

/-- Model of mime.ParseMediaType for the use in handleMCP: the token before
any parameter, surrounding whitespace trimmed, lowercased; empty is an
error. -/
def toLowerChar (c : Char) : Char :=
  if 'A' ≤ c ∧ c ≤ 'Z' then Char.ofNat (c.toNat + 32) else c

def mediaTypeOf (ct : Str) : Option Str :=
  let base := trimSpace (List.takeWhile (fun c => c ≠ ';') ct)
  if base = [] then none else some (base.map toLowerChar)

/-- strings.TrimPrefix. -/
def trimPrefixStr (pat s : Str) : Str :=
  if leadsWith pat s then s.drop pat.length else s

/-- strings.Trim with a one-character cutset. -/
def trimCharBoth (c : Char) (s : Str) : Str :=
  ((s.dropWhile (· == c)).reverse.dropWhile (· == c)).reverse

/-- Representative err.Error() text for each core error (the exact wording is
not load-bearing for any claim). -/
def errMsg : CoreErr → Str
  | .invalidToolName => str "invalid tool name"
  | .unknownTool n => str "unknown tool: " ++ n
  | .toolBusy => str "tool is busy"
  | .spawnFail => str "spawn failed"
  | .invalidInputJson => str "invalid input json"
  | .writeStdin => str "write stdin"
  | .sinkGone => str "write line"
  | .readStdout => str "read stdout"
  | .waitFail => str "wait"

/-- JSON payload of the terminal SSE error event: the marshalled
map {"error": msg}, substituting the generic text for the busy case. -/
def errPayload (e : CoreErr) : Str :=
  let msg := if e = .toolBusy then str "tool busy" else errMsg e
  str "\x7b\"error\":\"" ++ msg ++ str "\"\x7d"

/-- Coarse model of time.Duration.String restricted to whole milliseconds and
sub-minute values; no claim depends on this header value. -/
def durStr (ms : Int) : Str :=
  let m := ms.toNat
  if m % 1000 = 0 then Nat.toDigits 10 (m / 1000) ++ str "s"
  else Nat.toDigits 10 m ++ str "ms"

/-- The SSE response headers set by handleMCP before invoking the core
(Content-Type, Cache-Control, Connection, X-Accel-Buffering, X-MCP-Tool, then
X-MCP-Timeout and X-MCP-Runtime when the tool resolves). -/
def sseHeaders (cfg : Config) (toolName : Str) : Headers :=
  let h := setHeader [] (str "Content-Type") (str "text/event-stream")
  let h := setHeader h (str "Cache-Control") (str "no-cache")
  let h := setHeader h (str "Connection") (str "keep-alive")
  let h := setHeader h (str "X-Accel-Buffering") (str "no")
  let h := setHeader h (str "X-MCP-Tool") toolName
  match lookupTool cfg toolName with
  | some t =>
    let h := setHeader h (str "X-MCP-Timeout") (durStr t.timeout)
    if t.runtime ≠ [] then setHeader h (str "X-MCP-Runtime") t.runtime else h
  | none => h

/-- maxRequestBodyBytes = 1 MiB. -/
def maxRequestBodyBytes : Nat := 1048576

/-- One HTTP request to the dispatch endpoint, as the handler observes it. -/
structure HttpRequest where
  method : Str
  urlPath : Str
  contentType : Str
  body : Str
  flusherOk : Bool
deriving DecidableEq

/-- The stream state as it stands when StreamTool returns: started exactly
when the sink saw at least one WriteLine call. -/
def streamStateAfter (tr : StreamTrace) : StreamState :=
  if tr.attempts = 0 then ⟨false, false⟩
  else StreamState.markStarted ⟨false, false⟩

/-- The error-phase split after StreamTool returns (the tail of handleMCP):
before any event the transport still owns the status (429 for busy with
Retry-After, 500 otherwise); after the first event it emits at most one
terminal error SSE event, guarded by the stream state. -/
def respondAfterStream (h : Headers) (tr : StreamTrace) : McpOutcome :=
  match tr.result with
  | none =>
    .streamed h (tr.written.map (fun l => sseFrame (str "message") l)) none
  | some e =>
    if (streamStateAfter tr).canHTTPError then
      if e = .toolBusy then
        httpError (setHeader h (str "Retry-After") (str "1")) 429
          (str "tool busy")
      else httpError h 500 (errMsg e)
    else
      .streamed h (tr.written.map (fun l => sseFrame (str "message") l))
        (if ((streamStateAfter tr).trySendStreamError).2 then
          some (sseFrame (str "error") (errPayload e))
        else none)

/-- An empty stream trace for requests rejected before the core runs. -/
def emptyTrace : StreamTrace := ⟨false, none, 0, [], none⟩

/-- The tool-name segment: TrimPrefix of the mount point, then Trim of
slashes required (handleMCP). -/
def reqToolName (req : HttpRequest) : Str :=
  trimCharBoth '/' (trimPrefixStr (str "/mcp/") req.urlPath)

/-- The effective request body: whitespace-trimmed, empty defaulting to the
empty JSON object (handleMCP). -/
def reqBodyEff (req : HttpRequest) : Str :=
  if trimSpace req.body = [] then str "\x7b\x7d" else trimSpace req.body

/-- handleMCP from transport/http.go as a sequential function: method check,
media-type check, tool-name extraction and validation, bounded body read,
empty-body default and JSON check, flusher check, SSE header preparation,
core invocation, then the two-phase error mapping. -/
def handleMCP (cfg : Config) (sm : SemMap) (req : HttpRequest) (child : Child)
    (sinkAccept : Nat) : McpOutcome × StreamTrace × SemMap :=
  if req.method ≠ str "POST" then
    (httpError [] 405 (str "method not allowed"), emptyTrace, sm)
  else if req.contentType = [] then
    (httpError [] 415 (str "unsupported media type"), emptyTrace, sm)
  else if mediaTypeOf req.contentType ≠ some (str "application/json") then
    (httpError [] 415 (str "unsupported media type"), emptyTrace, sm)
  else if (validateToolName (reqToolName req)).isSome then
    (httpError [] 400 (str "invalid tool name"), emptyTrace, sm)
  else if maxRequestBodyBytes < req.body.length then
    (httpError [] 400 (str "invalid body"), emptyTrace, sm)
  else if ¬ jsonValid (reqBodyEff req) then
    (httpError [] 400 (str "body must be valid JSON"), emptyTrace, sm)
  else if ¬ req.flusherOk then
    (httpError [] 500 (str "streaming unsupported"), emptyTrace, sm)
  else
    (respondAfterStream (sseHeaders cfg (reqToolName req))
        (streamTool cfg sm (reqToolName req) (reqBodyEff req) child
          sinkAccept).1,
      (streamTool cfg sm (reqToolName req) (reqBodyEff req) child
        sinkAccept).1,
      (streamTool cfg sm (reqToolName req) (reqBodyEff req) child
        sinkAccept).2)

end Gateway

namespace Gateway

theorem getHeader_setHeader_same (h : Headers) (k v : Str) :
    getHeader (setHeader h k v) k = some v := by
  induction h with
  | nil => simp [setHeader, getHeader]
  | cons p rest ih =>
    obtain ⟨k0, v0⟩ := p
    by_cases hk : k0 = k
    · simp [setHeader, hk, getHeader]
    · simp [setHeader, hk, getHeader, ih]

theorem getHeader_setHeader_ne (h : Headers) (k v k1 : Str) (hne : k1 ≠ k) :
    getHeader (setHeader h k v) k1 = getHeader h k1 := by
  induction h with
  | nil =>
    simp only [setHeader, getHeader]
    rw [if_neg (fun heq => hne heq.symm)]
  | cons p rest ih =>
    obtain ⟨k0, v0⟩ := p
    by_cases hk : k0 = k
    · subst hk
      simp only [setHeader, if_pos rfl, getHeader]
      rw [if_neg (fun heq => hne heq.symm), if_neg (fun heq => hne heq.symm)]
    · simp only [setHeader, if_neg hk, getHeader]
      by_cases hk1 : k0 = k1
      · rw [if_pos hk1, if_pos hk1]
      · rw [if_neg hk1, if_neg hk1]
        exact ih

theorem getHeader_delHeader_ne (h : Headers) (k k1 : Str) (hne : k1 ≠ k) :
    getHeader (delHeader h k) k1 = getHeader h k1 := by
  induction h with
  | nil => simp [delHeader]
  | cons p rest ih =>
    obtain ⟨k0, v0⟩ := p
    by_cases hk : k0 = k
    · subst hk
      simp only [delHeader, getHeader]
      rw [if_pos trivial, ih, if_neg (fun heq => hne heq.symm)]
    · simp only [delHeader, if_neg hk, getHeader]
      by_cases hk1 : k0 = k1
      · rw [if_pos hk1, if_pos hk1]
      · rw [if_neg hk1, if_neg hk1]
        exact ih

theorem httpError_fields (h : Headers) (s : Nat) (m : Str) :
    outcomeStatus (httpError h s m) = s ∧
    getHeader (outcomeHeaders (httpError h s m)) (str "Content-Type")
      = some (str "text/plain; charset=utf-8") ∧
    ∀ k, k ≠ str "Content-Type" → k ≠ str "X-Content-Type-Options" →
      k ≠ str "Content-Length" →
      getHeader (outcomeHeaders (httpError h s m)) k = getHeader h k := by
  refine ⟨rfl, ?_, ?_⟩
  · show getHeader (setHeader _ (str "X-Content-Type-Options") _)
      (str "Content-Type") = _
    rw [getHeader_setHeader_ne _ _ _ _ (by decide)]
    exact getHeader_setHeader_same _ _ _
  · intro k hct hxcto hcl
    show getHeader (setHeader _ (str "X-Content-Type-Options") _) k = _
    rw [getHeader_setHeader_ne _ _ _ _ hxcto, getHeader_setHeader_ne _ _ _ _ hct,
      getHeader_delHeader_ne _ _ _ hcl]

theorem respondAfterStream_busy_early (h : Headers) (tr : StreamTrace)
    (hres : tr.result = some .toolBusy) (hatt : tr.attempts = 0) :
    respondAfterStream h tr
      = httpError (setHeader h (str "Retry-After") (str "1")) 429
          (str "tool busy") := by
  unfold respondAfterStream
  rw [hres]
  have hst : streamStateAfter tr = ⟨false, false⟩ := by
    unfold streamStateAfter
    rw [if_pos hatt]
  rw [hst]
  rfl

/-- C4 counterexample: with tool `slow` at its concurrency cap, the handler
does answer 429 with Retry-After: 1, but the response still carries SSE
streaming headers that were set before dispatch (here Cache-Control: no-cache
and X-Accel-Buffering: no), refuting the no-SSE-headers part of the claim. -/
def toolSlow : Tool := { toolNat2 with maxConcurrent := 1 }

def cfgSlow : Config :=
  { workspaceRoot := (str "/ws"), toolsRoot := (str "/tools"),
    tools := [(str "slow", toolSlow)] }

def smBusy : SemMap := [(str "slow", ⟨1, 1⟩)]

def reqSlow : HttpRequest :=
  { method := (str "POST"), urlPath := (str "/mcp/slow"),
    contentType := (str "application/json"), body := (str "\x7b\x7d"),
    flusherOk := true }

/-- C4, counterexample: the busy 429 response retains streaming headers, so
the claim's clause that no SSE header is on the response is false as stated
(status, Retry-After and the absent spawn are as claimed). -/
theorem C4_counterexample_sse_headers_on_429 :
    outcomeStatus (handleMCP cfgSlow smBusy reqSlow childQuiet 9).1 = 429 ∧
    getHeader (outcomeHeaders (handleMCP cfgSlow smBusy reqSlow childQuiet 9).1)
      (str "Retry-After") = some (str "1") ∧
    getHeader (outcomeHeaders (handleMCP cfgSlow smBusy reqSlow childQuiet 9).1)
      (str "Cache-Control") = some (str "no-cache") ∧
    getHeader (outcomeHeaders (handleMCP cfgSlow smBusy reqSlow childQuiet 9).1)
      (str "X-Accel-Buffering") = some (str "no") ∧
    (handleMCP cfgSlow smBusy reqSlow childQuiet 9).2.1.spawned = false := by
  refine ⟨?_, ?_, ?_, ?_, ?_⟩ <;> rfl

end Gateway

namespace Gateway

/-- C4 (amended): admission is fail-fast: with the per-tool counter at its
capacity, StreamTool returns the distinguished busy error immediately and no
child is spawned; the transport answers a pre-first-event busy failure with
status 429, Retry-After: 1, and the SSE content type is never sent (the
response's Content-Type is the text/plain of http.Error) — though streaming
headers set before dispatch remain on the response. -/
theorem C4_busy_failfast_429 :
    (∀ (cfg : Config) (sm : SemMap) (name input : Str) (child : Child)
        (accept : Nat) (tool : Tool) (s : Sem),
      validateToolName name = none → lookupTool cfg name = some tool →
      lookupSem sm name = some s → s.count = s.cap →
      (streamTool cfg sm name input child accept).1
        = ⟨false, none, 0, [], some .toolBusy⟩) ∧
    (∀ (cfg : Config) (sm : SemMap) (req : HttpRequest) (child : Child)
        (accept : Nat),
      (handleMCP cfg sm req child accept).2.1.result = some .toolBusy →
      (handleMCP cfg sm req child accept).2.1.attempts = 0 →
      outcomeStatus (handleMCP cfg sm req child accept).1 = 429 ∧
      getHeader (outcomeHeaders (handleMCP cfg sm req child accept).1)
        (str "Retry-After") = some (str "1") ∧
      getHeader (outcomeHeaders (handleMCP cfg sm req child accept).1)
        (str "Content-Type") = some (str "text/plain; charset=utf-8") ∧
      ∃ st hd m,
        (handleMCP cfg sm req child accept).1 = .earlyError st hd m) := by
  constructor
  · intro cfg sm name input child accept tool s hval hlk hsem hcap
    have hacq : acquireSemaphore s = none := by
      unfold acquireSemaphore
      rw [hcap]
      simp
    unfold streamTool
    simp only [hval, Option.isSome_none, Bool.false_eq_true, if_false, hlk,
      toolSemaphore, hsem, hacq]
  · intro cfg sm req child accept
    unfold handleMCP
    split
    · intro hres
      exact absurd hres (by simp [emptyTrace])
    · split
      · intro hres
        exact absurd hres (by simp [emptyTrace])
      · split
        · intro hres
          exact absurd hres (by simp [emptyTrace])
        · split
          · intro hres
            exact absurd hres (by simp [emptyTrace])
          · split
            · intro hres
              exact absurd hres (by simp [emptyTrace])
            · split
              · intro hres
                exact absurd hres (by simp [emptyTrace])
              · split
                · intro hres
                  exact absurd hres (by simp [emptyTrace])
                · dsimp only
                  intro hres hatt
                  rw [respondAfterStream_busy_early _ _ hres hatt]
                  refine ⟨(httpError_fields _ _ _).1, ?_,
                    (httpError_fields _ _ _).2.1, 429, _, _, rfl⟩
                  rw [(httpError_fields _ _ _).2.2 (str "Retry-After")
                    (by decide) (by decide) (by decide)]
                  exact getHeader_setHeader_same _ _ _

/-- Concrete instance of C4 (amended) at the busy catalog. -/
theorem C4_busy_failfast_429_witness :
    (streamTool cfgSlow smBusy (str "slow") (str "\x7b\x7d") childQuiet 9).1
      = ⟨false, none, 0, [], some .toolBusy⟩ ∧
    outcomeStatus (handleMCP cfgSlow smBusy reqSlow childQuiet 9).1 = 429 ∧
    getHeader (outcomeHeaders (handleMCP cfgSlow smBusy reqSlow childQuiet 9).1)
      (str "Retry-After") = some (str "1") ∧
    getHeader (outcomeHeaders (handleMCP cfgSlow smBusy reqSlow childQuiet 9).1)
      (str "Content-Type") = some (str "text/plain; charset=utf-8") := by
  have h2 := C4_busy_failfast_429.2 cfgSlow smBusy reqSlow childQuiet 9
    rfl rfl
  exact ⟨C4_busy_failfast_429.1 cfgSlow smBusy (str "slow") (str "\x7b\x7d")
    childQuiet 9 toolSlow ⟨1, 1⟩ rfl rfl rfl rfl, h2.1, h2.2.1, h2.2.2.1⟩

/-- The request used for the C5 check: a well-formed tool name that is not in
the catalog. -/
def reqGhost : HttpRequest :=
  { method := (str "POST"), urlPath := (str "/mcp/ghost"),
    contentType := (str "application/json"), body := (str "\x7b\x7d"),
    flusherOk := true }

/-- C5: a POST whose valid tool-name segment names no catalog entry is
answered with HTTP 500 (via the generic pre-first-event error path), not the
404 the specification promises; no process is started.  The evaluation
exhibits the divergence. -/
theorem C5_unknown_tool_gets_500_not_404 :
    outcomeStatus (handleMCP cfgOne [] reqGhost childQuiet 9).1 = 500 ∧
    (handleMCP cfgOne [] reqGhost childQuiet 9).2.1.spawned = false ∧
    (handleMCP cfgOne [] reqGhost childQuiet 9).2.1.result
      = some (.unknownTool (str "ghost")) ∧
    outcomeStatus (handleMCP cfgOne [] reqGhost childQuiet 9).1 ≠ 404 := by
  refine ⟨rfl, rfl, rfl, by decide⟩

end Gateway

namespace Gateway

/-- Outcome class: the response completed normally (no error event). -/
def OutcomeNormal (o : McpOutcome) (tr : StreamTrace) : Prop :=
  ∃ h msgs, o = .streamed h msgs none ∧ tr.result = none

/-- Outcome class: a single terminal error event after the first event. -/
def OutcomeErrEvent (o : McpOutcome) (tr : StreamTrace) : Prop :=
  ∃ h msgs ev, o = .streamed h msgs (some ev) ∧ ev.kind = str "error"
    ∧ tr.attempts ≠ 0

/-- Outcome class: an HTTP error status before any event. -/
def OutcomeEarly (o : McpOutcome) (tr : StreamTrace) : Prop :=
  ∃ s h m, o = .earlyError s h m ∧ tr.attempts = 0

theorem not_normal_and_errEvent (o : McpOutcome) (tr : StreamTrace) :
    ¬(OutcomeNormal o tr ∧ OutcomeErrEvent o tr) := by
  rintro ⟨⟨h1, m1, ho1, -⟩, ⟨h2, m2, ev, ho2, -, -⟩⟩
  rw [ho1] at ho2
  simp at ho2

theorem not_normal_and_early (o : McpOutcome) (tr : StreamTrace) :
    ¬(OutcomeNormal o tr ∧ OutcomeEarly o tr) := by
  rintro ⟨⟨h1, m1, ho1, -⟩, ⟨s2, h2, m2, ho2, -⟩⟩
  rw [ho1] at ho2
  simp at ho2

theorem not_errEvent_and_early (o : McpOutcome) (tr : StreamTrace) :
    ¬(OutcomeErrEvent o tr ∧ OutcomeEarly o tr) := by
  rintro ⟨⟨h1, m1, ev, ho1, -, -⟩, ⟨s2, h2, m2, ho2, -⟩⟩
  rw [ho1] at ho2
  simp at ho2

theorem trySendCount_of_sent (n : Nat) (st : StreamState)
    (h : st.errorSent = true) : trySendCount st n = 0 := by
  induction n with
  | zero => rfl
  | succ n ih =>
    unfold trySendCount StreamState.trySendStreamError
    rw [if_pos h]
    simpa using ih

theorem trySendCount_le_one (st : StreamState) (n : Nat) :
    trySendCount st n ≤ 1 := by
  cases n with
  | zero => simp [trySendCount]
  | succ n =>
    unfold trySendCount StreamState.trySendStreamError
    by_cases hs : st.errorSent = true
    · rw [if_pos hs]
      simpa using Nat.le_succ_of_le (Nat.le_of_eq (trySendCount_of_sent n st hs))
    · rw [if_neg hs]
      simpa using Nat.le_of_eq (trySendCount_of_sent n _ rfl)

theorem respondAfterStream_classify (h : Headers) (tr : StreamTrace) :
    OutcomeNormal (respondAfterStream h tr) tr ∨
    OutcomeErrEvent (respondAfterStream h tr) tr ∨
    OutcomeEarly (respondAfterStream h tr) tr := by
  unfold respondAfterStream
  cases hres : tr.result with
  | none => exact Or.inl ⟨h, _, rfl, hres⟩
  | some e =>
    by_cases hatt : tr.attempts = 0
    · have hst : streamStateAfter tr = ⟨false, false⟩ := by
        unfold streamStateAfter
        rw [if_pos hatt]
      rw [hst]
      dsimp only
      refine Or.inr (Or.inr ?_)
      by_cases hb : e = .toolBusy
      · subst hb
        exact ⟨429, _, _, rfl, hatt⟩
      · rw [if_neg hb]
        exact ⟨500, _, _, rfl, hatt⟩
    · have hst : streamStateAfter tr = StreamState.markStarted ⟨false, false⟩ := by
        unfold streamStateAfter
        rw [if_neg hatt]
      rw [hst]
      refine Or.inr (Or.inl ?_)
      exact ⟨h, _, _, rfl, rfl, hatt⟩

/-- C6: for every request one of exactly three outcomes occurs: normal
completion with zero or more message events; a single terminal error event
(only after the first event); or an HTTP error status with no events — and
the stream-state object caps the number of error-event sends at one no matter
how many times the send is attempted. -/
theorem C6_exactly_one_error_phase :
    (∀ (st : StreamState) (n : Nat), trySendCount st n ≤ 1) ∧
    (∀ (cfg : Config) (sm : SemMap) (req : HttpRequest) (child : Child)
        (accept : Nat),
      (OutcomeNormal (handleMCP cfg sm req child accept).1
          (handleMCP cfg sm req child accept).2.1 ∨
        OutcomeErrEvent (handleMCP cfg sm req child accept).1
          (handleMCP cfg sm req child accept).2.1 ∨
        OutcomeEarly (handleMCP cfg sm req child accept).1
          (handleMCP cfg sm req child accept).2.1) ∧
      ¬(OutcomeNormal (handleMCP cfg sm req child accept).1
            (handleMCP cfg sm req child accept).2.1 ∧
          OutcomeErrEvent (handleMCP cfg sm req child accept).1
            (handleMCP cfg sm req child accept).2.1) ∧
      ¬(OutcomeNormal (handleMCP cfg sm req child accept).1
            (handleMCP cfg sm req child accept).2.1 ∧
          OutcomeEarly (handleMCP cfg sm req child accept).1
            (handleMCP cfg sm req child accept).2.1) ∧
      ¬(OutcomeErrEvent (handleMCP cfg sm req child accept).1
            (handleMCP cfg sm req child accept).2.1 ∧
          OutcomeEarly (handleMCP cfg sm req child accept).1
            (handleMCP cfg sm req child accept).2.1)) := by
  refine ⟨trySendCount_le_one, ?_⟩
  intro cfg sm req child accept
  refine ⟨?_, not_normal_and_errEvent _ _, not_normal_and_early _ _,
    not_errEvent_and_early _ _⟩
  unfold handleMCP
  split
  · exact Or.inr (Or.inr ⟨405, _, _, rfl, rfl⟩)
  · split
    · exact Or.inr (Or.inr ⟨415, _, _, rfl, rfl⟩)
    · split
      · exact Or.inr (Or.inr ⟨415, _, _, rfl, rfl⟩)
      · split
        · exact Or.inr (Or.inr ⟨400, _, _, rfl, rfl⟩)
        · split
          · exact Or.inr (Or.inr ⟨400, _, _, rfl, rfl⟩)
          · split
            · exact Or.inr (Or.inr ⟨400, _, _, rfl, rfl⟩)
            · split
              · exact Or.inr (Or.inr ⟨500, _, _, rfl, rfl⟩)
              · exact respondAfterStream_classify _ _

/-- Concrete instance of C6 on the one-tool catalog. -/
theorem C6_exactly_one_error_phase_witness :
    OutcomeNormal (handleMCP cfgOne [] reqGhost childQuiet 9).1
        (handleMCP cfgOne [] reqGhost childQuiet 9).2.1 ∨
      OutcomeErrEvent (handleMCP cfgOne [] reqGhost childQuiet 9).1
        (handleMCP cfgOne [] reqGhost childQuiet 9).2.1 ∨
      OutcomeEarly (handleMCP cfgOne [] reqGhost childQuiet 9).1
        (handleMCP cfgOne [] reqGhost childQuiet 9).2.1 :=
  (C6_exactly_one_error_phase.2 cfgOne [] reqGhost childQuiet 9).1

end Gateway

namespace Gateway

/-! ## Container backend (runtime/docker.go): argument vector -/

def tmpfsTmp : Str := str "/tmp:rw,noexec,nosuid,size=64m"

def tmpfsVarTmp : Str := str "/var/tmp:rw,noexec,nosuid,size=64m"

/-- The fixed hardening flag block of the container invocation: run -i --rm,
no-new-privileges, cap-drop ALL, the effective network, the read-only/tmpfs
flags when effective, and the workspace volume mount. -/
def hardeningFlags (cfg : Config) (tool : Tool) : List Str :=
  [str "run", str "-i", str "--rm", str "--security-opt=no-new-privileges",
      str "--cap-drop=ALL", str "--network", tool.dockerNetworkEffective]
    ++ (if tool.readOnlyEffective then
        [str "--read-only", str "--tmpfs", tmpfsTmp, str "--tmpfs", tmpfsVarTmp]
      else [])
    ++ [str "-v", cfg.workspaceRoot ++ str ":/workspaces"]

/-- DockerRuntime.Spawn's argument vector, built in the order of the source:
base flags, conditional read-only block, workspace mount, then the image,
then the tool args. -/
def dockerSpawnArgs (cfg : Config) (tool : Tool) : List Str :=
  let args := [str "run", str "-i", str "--rm",
    str "--security-opt=no-new-privileges", str "--cap-drop=ALL",
    str "--network", tool.dockerNetworkEffective]
  let args := if tool.readOnlyEffective then
      args ++ [str "--read-only"] ++ [str "--tmpfs", tmpfsTmp]
        ++ [str "--tmpfs", tmpfsVarTmp]
    else args
  let args := args ++ [str "-v", cfg.workspaceRoot ++ str ":/workspaces"]
  let args := args ++ [tool.image]
  args ++ tool.args

/-- C8: the container argument vector is exactly the hardening flag block
followed by the image and then the tool args; the flag block does not depend
on the user-supplied image or args (so no user-supplied string is spliced
into a flag); the image's position anchors the flag/argument boundary; and
the network flag value is always none or bridge, defaulting to none. -/
theorem C8_docker_flags_precede_image :
    (∀ (cfg : Config) (tool : Tool),
      dockerSpawnArgs cfg tool
        = hardeningFlags cfg tool ++ [tool.image] ++ tool.args) ∧
    (∀ (cfg : Config) (tool : Tool) (img : Str) (as : List Str),
      hardeningFlags cfg { tool with image := img, args := as }
        = hardeningFlags cfg tool) ∧
    (∀ (cfg : Config) (tool : Tool),
      (dockerSpawnArgs cfg tool).take (hardeningFlags cfg tool).length
          = hardeningFlags cfg tool ∧
        (dockerSpawnArgs cfg tool).drop (hardeningFlags cfg tool).length
          = tool.image :: tool.args) ∧
    (∀ tool : Tool,
      (tool.dockerNetworkEffective = str "none" ∨
        tool.dockerNetworkEffective = str "bridge") ∧
      (tool.dockerNetwork = [] → tool.dockerNetworkEffective = str "none")) := by
  have hmain : ∀ (cfg : Config) (tool : Tool),
      dockerSpawnArgs cfg tool
        = hardeningFlags cfg tool ++ [tool.image] ++ tool.args := by
    intro cfg tool
    unfold dockerSpawnArgs hardeningFlags
    by_cases hro : tool.readOnlyEffective
    · simp [hro]
    · simp [hro]
  refine ⟨hmain, ?_, ?_, ?_⟩
  · intro cfg tool img as
    rfl
  · intro cfg tool
    constructor
    · rw [hmain, List.append_assoc]
      exact List.take_left _ _
    · rw [hmain, List.append_assoc]
      rw [List.drop_left]
      rfl
  · intro tool
    constructor
    · unfold Tool.dockerNetworkEffective
      split
      · exact Or.inl rfl
      · split
        · rename_i hmem
          rcases hmem with hm | hm
          · exact Or.inl hm
          · exact Or.inr hm
        · exact Or.inl rfl
    · intro hempty
      unfold Tool.dockerNetworkEffective
      rw [if_pos hempty]

/-- Concrete instance of C8 at a read-only container tool with default
network. -/
def toolBox : Tool :=
  { runtime := (str "container"), mode := [], cmd := [],
    args := [(str "--flag-looking-arg"), (str "payload")],
    image := (str "ghcr.io/acme/box:1"), timeoutMS := 0, maxConcurrent := 1,
    dockerNetwork := [], readOnly := none }

theorem C8_docker_flags_precede_image_witness :
    dockerSpawnArgs cfgOne toolBox
      = hardeningFlags cfgOne toolBox ++ [toolBox.image] ++ toolBox.args ∧
    toolBox.dockerNetworkEffective = str "none" :=
  ⟨C8_docker_flags_precede_image.1 cfgOne toolBox,
    (C8_docker_flags_precede_image.2.2.2 toolBox).2 rfl⟩

/-! ## Kill primitive (runtime/kill.go and the part_014 variant) -/

inductive Sig where
  | sigterm
  | sigkill
deriving DecidableEq

/-- Observable actions of a kill primitive, in order. -/
inductive KillAct where
  | getpgid (pid : Int)
  | killGroup (pgid : Int) (s : Sig)
  | signalProc (pid : Int) (s : Sig)
  | killProc (pid : Int)
  | sleepMs (ms : Nat)
  | pollExistence (pid : Int) (budgetMs : Nat)
deriving DecidableEq

/-- KillProcess as written in runtime/kill.go (non-Windows branch): SIGTERM
to the group numbered by the child's pid (the pgid is never read), a fixed
150 ms sleep, then an unconditional SIGKILL to the same number. -/
def killProcessKillGo (pid : Int) : List KillAct :=
  [.killGroup pid .sigterm, .sleepMs 150, .killGroup pid .sigkill]

/-- KillProcess as written in the part_014 variant (non-Windows): read the
real pgid with Getpgid; on failure fall back to signalling the process
itself; otherwise SIGTERM the group, poll existence with Signal(0) for up to
800 ms, and SIGKILL the group only if the child is still alive. -/
def killProcessPart14 (pid : Int) (pgidRes : Option Int)
    (exitsWithinGrace : Bool) : List KillAct :=
  match pgidRes with
  | none =>
    [.getpgid pid, .signalProc pid .sigterm, .pollExistence pid 500,
      .killProc pid]
  | some g =>
    [.getpgid pid, .killGroup g .sigterm, .pollExistence pid 800]
      ++ (if exitsWithinGrace then []
        else [.killGroup g .sigkill, .pollExistence pid 500])

def isGetpgid : KillAct → Bool
  | .getpgid _ => true
  | _ => false

def isPoll : KillAct → Bool
  | .pollExistence _ _ => true
  | _ => false

def isSigkill : KillAct → Bool
  | .killGroup _ .sigkill => true
  | .signalProc _ .sigkill => true
  | .killProc _ => true
  | _ => false

/-- C3: the kill primitive of runtime/kill.go never reads the child's
process-group id, performs no signal-0 existence poll (only a fixed 150 ms
sleep), and sends SIGKILL even when the child has already exited; the
part_014 variant behaves exactly as the claim describes (Getpgid first,
group SIGTERM, 800 ms signal-0 poll, SIGKILL only when still alive). -/
theorem C3_killgo_skips_pgid_and_always_sigkills :
    killProcessKillGo 42
      = [.killGroup 42 .sigterm, .sleepMs 150, .killGroup 42 .sigkill] ∧
    (killProcessKillGo 42).all (fun a => !(isGetpgid a)) = true ∧
    (killProcessKillGo 42).all (fun a => !(isPoll a)) = true ∧
    (killProcessKillGo 42).any isSigkill = true ∧
    killProcessPart14 42 (some 37) true
      = [.getpgid 42, .killGroup 37 .sigterm, .pollExistence 42 800] ∧
    (killProcessPart14 42 (some 37) true).any isSigkill = false ∧
    killProcessPart14 42 (some 37) false
      = [.getpgid 42, .killGroup 37 .sigterm, .pollExistence 42 800,
        .killGroup 37 .sigkill, .pollExistence 42 500] := by
  refine ⟨rfl, ?_, ?_, ?_, rfl, ?_, rfl⟩ <;> decide

end Gateway

namespace Gateway

/-! ## Line transport (transport/stdio.go): message data framing -/

/-- Lower-case hex digit. -/
def hexLoDigit (n : Nat) : Char :=
  if n < 10 then Char.ofNat ('0'.toNat + n) else Char.ofNat ('a'.toNat + (n - 10))

/-- The six-byte escape the Go JSON encoder emits for an HTML-sensitive
byte. -/
def escHtmlByte (c : Char) : Str :=
  ['\\', 'u', '0', '0', hexLoDigit (c.toNat / 16), hexLoDigit (c.toNat % 16)]

/-- One step of the JSON scanner's string-tracking state: whether we are
inside a string literal, and whether the next character is escaped. -/
def scanStateStep (inStr esc : Bool) (c : Char) : Bool × Bool :=
  if inStr then
    if esc then (true, false)
    else if c == '\\' then (true, true)
    else if c == '"' then (false, false)
    else (true, false)
  else if c == '"' then (true, false)
  else (false, false)

/-- Go encoding/json compact with HTML escaping, as run by json.Marshal over
a RawMessage: insignificant whitespace outside string literals is dropped;
the bytes <, > and & are written as \u00XX escapes wherever they occur;
the UTF-8 sequences for U+2028 and U+2029 become backslash-u2028 and backslash-u2029 escapes. -/
def jsonCompactGo (inStr esc : Bool) (s : Str) : Str :=
  match s with
  | [] => []
  | c :: rest =>
    if c == '<' || c == '>' || c == '&' then
      escHtmlByte c
        ++ jsonCompactGo (scanStateStep inStr esc c).1
          (scanStateStep inStr esc c).2 rest
    else if c == Char.ofNat 0xE2 then
      match rest with
      | c1 :: c2 :: rest2 =>
        if c1 == Char.ofNat 0x80
            && (c2 == Char.ofNat 0xA8 || c2 == Char.ofNat 0xA9) then
          let st1 := scanStateStep inStr esc c
          let st2 := scanStateStep st1.1 st1.2 c1
          let st3 := scanStateStep st2.1 st2.2 c2
          ['\\', 'u', '2', '0', '2',
              if c2 == Char.ofNat 0xA8 then '8' else '9']
            ++ jsonCompactGo st3.1 st3.2 rest2
        else
          c :: jsonCompactGo (scanStateStep inStr esc c).1
            (scanStateStep inStr esc c).2 (c1 :: c2 :: rest2)
      | r =>
        c :: jsonCompactGo (scanStateStep inStr esc c).1
          (scanStateStep inStr esc c).2 r
    else if !inStr && jsonWsChar c then
      jsonCompactGo (scanStateStep inStr esc c).1
        (scanStateStep inStr esc c).2 rest
    else
      c :: jsonCompactGo (scanStateStep inStr esc c).1
        (scanStateStep inStr esc c).2 rest

/-- The data field the line transport emits for one output line: emitRaw
wraps the line as a json.RawMessage inside the envelope and json.Marshal
re-encodes it — the marshal fails on an invalid-JSON line (so no message
event is emitted), and otherwise the data bytes are the line's compaction. -/
def lineMessageData (line : Str) : Option Str :=
  if jsonValid line then some (jsonCompactGo false false line) else none

/-- C9 counterexample: an output line that is valid JSON with one interior
space and no surrounding whitespace is emitted with different bytes (the
space is dropped by the re-encoding), refuting byte-equality as claimed. -/
theorem C9_counterexample_interior_space_dropped :
    lineMessageData (str "\x7b\"a\": 1\x7d")
      = some (str "\x7b\"a\":1\x7d") ∧
    str "\x7b\"a\":1\x7d" ≠ str "\x7b\"a\": 1\x7d" ∧
    trimSpace (str "\x7b\"a\": 1\x7d") = str "\x7b\"a\": 1\x7d" := by
  refine ⟨rfl, by decide, rfl⟩

/-- C9 (amended): the data field of a message event on the line transport is
the JSON compaction of the child's output line (whitespace outside string
literals removed and HTML-sensitive bytes escaped by the re-marshalling;
invalid-JSON lines produce no message event at all); consequently the data
is byte-equal to the output line exactly when the line is already in compact
form. -/
theorem C9_line_data_is_compaction (line : Str) :
    (∀ d, lineMessageData line = some d
      → d = jsonCompactGo false false line) ∧
    (jsonValid line = true → jsonCompactGo false false line = line →
      lineMessageData line = some line) := by
  constructor
  · intro d hd
    unfold lineMessageData at hd
    split at hd
    · exact (Option.some.inj hd).symm
    · cases hd
  · intro hv hfix
    unfold lineMessageData
    rw [if_pos hv, hfix]

/-- Concrete instance of C9 (amended): a compact line round-trips
byte-equal. -/
theorem C9_line_data_is_compaction_witness :
    lineMessageData (str "\x7b\"a\":1\x7d") = some (str "\x7b\"a\":1\x7d") :=
  (C9_line_data_is_compaction (str "\x7b\"a\":1\x7d")).2 (by decide) (by decide)

end Gateway

namespace Gateway

/-! ## Sandbox path validator (sandbox.go, ValidatePath) -/

/-- strings.Split on the path separator. -/
def splitSepAux : Str → Str → List Str
  | [], acc => [acc.reverse]
  | c :: rest, acc =>
    if c = '/' then acc.reverse :: splitSepAux rest []
    else splitSepAux rest (c :: acc)

def splitSep (s : Str) : List Str := splitSepAux s []

def isAbsPath (p : Str) : Bool := leadsWith (str "/") p

/-- The element processing of filepath.Clean (Unix): drop empty and dot
components; dot-dot pops a non-dot-dot stack top, is dropped at the root, and
is kept at the head of a relative path.  The output stack is reversed. -/
def cleanRev (rooted : Bool) : List Str → List Str → List Str
  | out, [] => out
  | out, comp :: rest =>
    if comp = [] ∨ comp = str "." then cleanRev rooted out rest
    else if comp = str ".." then
      match out with
      | [] =>
        if rooted then cleanRev rooted [] rest
        else cleanRev rooted [str ".."] rest
      | top :: outRest =>
        if top = str ".." then cleanRev rooted (str ".." :: top :: outRest) rest
        else cleanRev rooted outRest rest
    else cleanRev rooted (comp :: out) rest

def joinComps : List Str → Str
  | [] => []
  | [c] => c
  | c :: rest => c ++ '/' :: joinComps rest

/-- filepath.Clean (Unix). -/
def clean (p : Str) : Str :=
  if p = [] then str "."
  else
    let rooted := isAbsPath p
    let body := joinComps ((cleanRev rooted [] (splitSep p)).reverse)
    if rooted then '/' :: body
    else if body = [] then str "." else body

/-- filepath.Join for two elements: empty elements are skipped, the joined
string is Cleaned; all-empty yields the empty string. -/
def joinPath (a b : Str) : Str :=
  if a = [] ∧ b = [] then []
  else if a = [] then clean b
  else if b = [] then clean a
  else clean (a ++ '/' :: b)

/-- Everything up to and including the last separator (empty if none). -/
def takeToLastSep (p : Str) : Str :=
  (p.reverse.dropWhile (fun c => c != '/')).reverse

/-- filepath.Dir (Unix). -/
def dirPath (p : Str) : Str := clean (takeToLastSep p)

/-- The last path component. -/
def lastComp (p : Str) : Str :=
  match (splitSep p).reverse with
  | [] => []
  | c :: _ => c

/-- The containment test the validator uses: equality with the root or the
root followed by the separator as a prefix (never a bare string prefix). -/
def inWorkspace (p root : Str) : Bool :=
  p == root || leadsWith (root ++ str "/") p

/-- One hex digit's value. -/
def hexVal (c : Char) : Option Nat :=
  if '0' ≤ c ∧ c ≤ '9' then some (c.toNat - '0'.toNat)
  else if 'a' ≤ c ∧ c ≤ 'f' then some (c.toNat - 'a'.toNat + 10)
  else if 'A' ≤ c ∧ c ≤ 'F' then some (c.toNat - 'A'.toNat + 10)
  else none

/-- net/url QueryUnescape: percent-decodes, turns plus into space, and fails
on a malformed escape. -/
def queryUnescape : Str → Option Str
  | [] => some []
  | '%' :: rest =>
    match rest with
    | a :: b :: rest2 =>
      match hexVal a, hexVal b with
      | some x, some y =>
        (queryUnescape rest2).map (Char.ofNat (16 * x + y) :: ·)
      | _, _ => none
    | _ => none
  | '+' :: rest => (queryUnescape rest).map (' ' :: ·)
  | c :: rest => (queryUnescape rest).map (c :: ·)

/-- Rejection classes of checkPathTraversal. -/
inductive TravErr where
  | absolute
  | dotdot
  | doubleSlash
  | slashDot
deriving DecidableEq

/-- checkPathTraversal from sandbox.go: reject absolute paths, dot-dot,
double slashes, and slash-dot. -/
def checkPathTraversal (p : Str) : Option TravErr :=
  if leadsWith (str "/") p then some .absolute
  else if containsSub (str "..") p then some .dotdot
  else if containsSub (str "//") p then some .doubleSlash
  else if containsSub (str "/.") p then some .slashDot
  else none

/-- A filesystem entry; intermediate regular files are not needed by the
scenarios used here. -/
inductive FsEntry where
  | dir
  | file
  | symlink (target : Str)
deriving DecidableEq

/-- A filesystem: a finite map from clean absolute paths to entries; the root
directory exists implicitly. -/
structure FileSys where
  entries : List (Str × FsEntry)
deriving DecidableEq

def lookupEntries : List (Str × FsEntry) → Str → Option FsEntry
  | [], _ => none
  | (p, e) :: rest, q => if p = q then some e else lookupEntries rest q

/-- Strict symlink-following resolution of path components from `cur`
(kernel semantics): a missing component fails, symlink targets are spliced
in, dot-dot moves to the parent.  Fuel bounds symlink chains. -/
def resolveComps (fs : FileSys) : Nat → Str → List Str → Option Str
  | 0, _, _ => none
  | _ + 1, cur, [] => some cur
  | fuel + 1, cur, comp :: rest =>
    if comp = [] ∨ comp = str "." then resolveComps fs fuel cur rest
    else if comp = str ".." then resolveComps fs fuel (dirPath cur) rest
    else
      match lookupEntries fs.entries (joinPath cur comp) with
      | some (.symlink t) =>
        if isAbsPath t then resolveComps fs fuel (str "/") (splitSep t ++ rest)
        else resolveComps fs fuel cur (splitSep t ++ rest)
      | some _ => resolveComps fs fuel (joinPath cur comp) rest
      | none => none

def resolveAbs (fs : FileSys) (p : Str) : Option Str :=
  if isAbsPath p then resolveComps fs (p.length + 64) (str "/") (splitSep p)
  else none

/-- Lexical-on-missing resolution: like `resolveComps` but a missing
component is kept literally and resolution continues — this is the resolution
of a path whose final components do not exist, the notion the specification
quantifies over. -/
def resolveLexComps (fs : FileSys) : Nat → Str → List Str → Option Str
  | 0, _, _ => none
  | _ + 1, cur, [] => some cur
  | fuel + 1, cur, comp :: rest =>
    if comp = [] ∨ comp = str "." then resolveLexComps fs fuel cur rest
    else if comp = str ".." then resolveLexComps fs fuel (dirPath cur) rest
    else
      match lookupEntries fs.entries (joinPath cur comp) with
      | some (.symlink t) =>
        if isAbsPath t then
          resolveLexComps fs fuel (str "/") (splitSep t ++ rest)
        else resolveLexComps fs fuel cur (splitSep t ++ rest)
      | _ => resolveLexComps fs fuel (joinPath cur comp) rest

def resolveLex (fs : FileSys) (p : Str) : Option Str :=
  if isAbsPath p then resolveLexComps fs (p.length + 64) (str "/") (splitSep p)
  else none

/-- os.Stat: the path resolves to an existing entry. -/
def statFS (fs : FileSys) (p : Str) : Bool :=
  (resolveAbs fs (clean p)).isSome

/-- os.Readlink: resolve the parent directory, then read the final component
without following it; errors (non-symlink, nonexistent) give none. -/
def readlinkFS (fs : FileSys) (p : Str) : Option Str :=
  match resolveAbs fs (dirPath (clean p)) with
  | none => none
  | some rd =>
    match lookupEntries fs.entries (joinPath rd (lastComp (clean p))) with
    | some (.symlink t) => some t
    | _ => none

/-- filepath.EvalSymlinks: full strict resolution. -/
def evalSymlinksFS (fs : FileSys) (p : Str) : Option Str :=
  resolveAbs fs (clean p)

/-- filepath.Abs with an explicit working directory. -/
def absFromCwd (cwd p : Str) : Str :=
  if isAbsPath p then clean p else joinPath cwd p

/-- The remaining-parts loop inside the symlink branch of ValidatePath: it
joins every remaining component onto currentPath. -/
def walkJoinRemaining (cur : Str) : List Str → Str
  | [] => cur
  | p :: rest =>
    if p = [] ∨ p = str "." then walkJoinRemaining cur rest
    else walkJoinRemaining (joinPath cur p) rest

/-- The component loop of ValidatePath, one iteration per part of the decoded
path: a resolved symlink must be relative, its target contained (by the
separator-aware check), its chain contained when it resolves, and the
remaining path re-checked — after which the loop continues with the mutated
currentPath, exactly as the source does. -/
def walkParts (fs : FileSys) (wsRoot : Str) : Str → List Str → Bool
  | _, [] => true
  | cur, part :: rest =>
    if part = [] ∨ part = str "." then walkParts fs wsRoot cur rest
    else
      match readlinkFS fs (joinPath cur part) with
      | none => walkParts fs wsRoot (joinPath cur part) rest
      | some target =>
        if isAbsPath target then false
        else
          let resolvedLink :=
            clean (joinPath (dirPath (joinPath cur part)) target)
          if !(inWorkspace resolvedLink wsRoot) then false
          else
            let chainOk :=
              match evalSymlinksFS fs resolvedLink with
              | some et => inWorkspace (clean et) wsRoot
              | none => true
            if !chainOk then false
            else
              let cur2 := clean (walkJoinRemaining (joinPath cur part) rest)
              if !(inWorkspace cur2 wsRoot) then false
              else walkParts fs wsRoot cur2 rest

/-- ValidatePath from sandbox.go over the filesystem model: workspace
normalization and existence check, traversal check on the raw, once-decoded
and (when it differs) twice-decoded path, the per-component symlink walk,
and the final EvalSymlinks with lexical fallback and separator-aware
containment.  `some` carries the returned canonical path. -/
def validatePath (fs : FileSys) (cwd workspaceRoot requestedPath : Str) :
    Option Str :=
  if !(statFS fs (absFromCwd cwd workspaceRoot)) then none
  else if (checkPathTraversal requestedPath).isSome then none
  else
    match queryUnescape requestedPath with
    | none => none
    | some decoded =>
      if (checkPathTraversal decoded).isSome then none
      else
        let ddBad :=
          match queryUnescape decoded with
          | some dd =>
            if dd ≠ decoded then (checkPathTraversal dd).isSome else false
          | none => false
        if ddBad then none
        else
          let wsRoot := clean (absFromCwd cwd workspaceRoot)
          if !(walkParts fs wsRoot wsRoot (splitSep decoded)) then none
          else
            let fullPath := joinPath wsRoot decoded
            let evalPath :=
              match evalSymlinksFS fs fullPath with
              | some p => p
              | none => clean fullPath
            if inWorkspace (clean evalPath) wsRoot then some (clean evalPath)
            else none

/-- The filesystem of the C1 failing input: /ws/link is a symlink to the
in-workspace directory /ws/d, whose entry s is a symlink escaping to
/outside; the requested final component does not exist. -/
def fsC1 : FileSys :=
  { entries := [
      (str "/ws", .dir),
      (str "/ws/link", .symlink (str "d")),
      (str "/ws/d", .dir),
      (str "/ws/d/s", .symlink (str "../../outside")),
      (str "/outside", .dir)] }

/-- A direct one-hop escape, which the validator does reject. -/
def fsC1b : FileSys :=
  { entries := [
      (str "/ws", .dir),
      (str "/ws/badlink", .symlink (str "../outside")),
      (str "/outside", .dir)] }

/-- C1: the validator accepts link/s/missing although its resolution after
symbolic-link traversal is /outside/missing, which escapes the workspace and
whose final path does not exist — violating the claimed universal rejection.
The component walk corrupts currentPath with the remaining-parts join, so the
second-hop symlink /ws/d/s is never examined, and the final containment check
falls back to the lexical path when EvalSymlinks fails on the nonexistent
file.  A one-hop escape (fsC1b) is rejected, showing the walk is intended to
catch exactly this class. -/
theorem C1_validatePath_accepts_symlink_escape :
    validatePath fsC1 (str "/") (str "/ws") (str "link/s/missing")
      = some (str "/ws/link/s/missing") ∧
    resolveLex fsC1 (str "/ws/link/s/missing")
      = some (str "/outside/missing") ∧
    inWorkspace (str "/outside/missing") (str "/ws") = false ∧
    statFS fsC1 (str "/ws/link/s/missing") = false ∧
    validatePath fsC1b (str "/") (str "/ws") (str "badlink/missing")
      = none := by
  refine ⟨rfl, rfl, by decide, rfl, rfl⟩

end Gateway
